import Mathlib

/-!
Verification of the WebInject resumable pipeline engine.

Shallow embedding of:
  * `Dataset/pipeline_state.py` — the phase state store,
  * `Dataset/main.py` — the pipeline driver skeleton,
  * `Dataset/crawler.py` — process supervisor (`download_page`),
    interactive gate (`_wait_for_captcha`) and scheduler aggregation
    (`run_crawler`),
  * `Training/train.py` — checkpoint save/resume.
-/

namespace WebInject

/-! ### Phase state store (`Dataset/pipeline_state.py`) -/

/-- In-memory pipeline state: the two keys `load_state`'s default provides,
`completed_phases` (a JSON list of strings) and `phase_data` (a JSON object,
modelled as an association list). `α` is the opaque per-phase payload type. -/
structure PipelineState (α : Type) where
  completed_phases : List String
  phase_data : List (String × α)
deriving Repr, DecidableEq

/-- The empty state `{"completed_phases": [], "phase_data": {}}` returned by
`load_state` when nothing usable is persisted. -/
def emptyState {α : Type} : PipelineState α := ⟨[], []⟩

/-- Content of the durable state file once opened. Three cases the code
distinguishes: the bytes decode as text and parse back to a state
(`json.load` succeeds); they decode as text but fail JSON parsing, or
reading fails with an `IOError` — exactly the errors the `except` clause
catches (`corrupt`); or the bytes are not decodable text, so reading raises
`UnicodeDecodeError`, which `except (json.JSONDecodeError, IOError)` does
not catch (`undecodable`). -/
inductive StateFile (α : Type) where
  | ok (s : PipelineState α)
  | corrupt
  | undecodable
deriving Repr, DecidableEq

/-- An exception that escapes `load_state` uncaught. -/
inductive PyError where
  | unicodeDecodeError
deriving Repr, DecidableEq

/-- `load_state()`: a missing file returns the empty state; a file that
parses returns the parsed state; a caught `JSONDecodeError`/`IOError`
returns the empty state (start fresh); undecodable bytes raise an uncaught
`UnicodeDecodeError`, modelled as `Except.error`. -/
def load_state {α : Type} : Option (StateFile α) → Except PyError (PipelineState α)
  | some (StateFile.ok s) => Except.ok s
  | some StateFile.corrupt => Except.ok emptyState
  | some StateFile.undecodable => Except.error PyError.unicodeDecodeError
  | none => Except.ok emptyState

/-- `save_state(state)`: serialize the entire state object to the durable
file (the new file content). -/
def save_state {α : Type} (s : PipelineState α) : Option (StateFile α) :=
  some (StateFile.ok s)

/-- Python dict assignment `m[k] = v` on an association list. -/
def setKey {α : Type} : List (String × α) → String → α → List (String × α)
  | [], k, v => [(k, v)]
  | (k', v') :: rest, k, v =>
      if k' = k then (k, v) :: rest else (k', v') :: setKey rest k v

/-- Python dict lookup `m.get(k)` on an association list. -/
def getKey {α : Type} : List (String × α) → String → Option α
  | [], _ => none
  | (k', v') :: rest, k => if k' = k then some v' else getKey rest k

/-- The in-memory mutation performed by `mark_completed`: append `phase_name`
to `completed_phases` if not already present, and store `phase_data` under the
phase name when it is non-null. -/
def mark_completed {α : Type} (s : PipelineState α) (p : String) (d : Option α) :
    PipelineState α :=
  { completed_phases :=
      if p ∈ s.completed_phases then s.completed_phases
      else s.completed_phases ++ [p]
    phase_data :=
      match d with
      | some v => setKey s.phase_data p v
      | none => s.phase_data }

/-- `mark_completed` including its persistence effect: mutate the state, then
`save_state(state)` writes the whole updated object before returning. Result:
(updated in-memory state, new durable file content). -/
def mark_completed_persist {α : Type} (s : PipelineState α) (p : String)
    (d : Option α) : PipelineState α × Option (StateFile α) :=
  let s' := mark_completed s p d
  (s', save_state s')

/-- `is_completed(state, phase_name)`: membership of the phase name in
`state.get("completed_phases", [])`. -/
def is_completed {α : Type} (s : PipelineState α) (p : String) : Bool :=
  decide (p ∈ s.completed_phases)

/-- `is_completed` at the raw dict level: the state may lack the
`completed_phases` key entirely (`none`); the source reads it with the
defaulting lookup `state.get("completed_phases", [])`. -/
def is_completed_dict (completed : Option (List String)) (p : String) : Bool :=
  decide (p ∈ completed.getD [])

/-! ### Pipeline driver (`Dataset/main.py`) -/

/-- The per-phase ingredients the driver skeleton of `main.py` uses: whether a
phase is enabled by configuration (`RUN_CRAWLER`/`RUN_SYNTH_GEN`; phases 2-5
are always enabled), the summary data a phase body produces for
`mark_completed`, and the `{"skipped": True}` marker recorded for a disabled
phase. -/
structure PhaseCfg (α : Type) where
  enabled : String → Bool
  body : String → α
  skippedMarker : α

/-- One phase function of `main.py`: if `is_completed`, skip (no body, no
state change); else, if the phase is disabled, mark it completed with the
skipped marker (no body); else run the body and mark completed with its
summary. Returns the new state and the list of phase bodies executed. -/
def run_phase {α : Type} (cfg : PhaseCfg α) (s : PipelineState α) (p : String) :
    PipelineState α × List String :=
  if is_completed s p then (s, [])
  else if cfg.enabled p then
    (mark_completed s p (some (cfg.body p)), [p])
  else
    (mark_completed s p (some cfg.skippedMarker), [])

/-- `main()`'s phase sequence: run the listed phases strictly in order,
threading the state, collecting the executed phase bodies. -/
def run_driver {α : Type} (cfg : PhaseCfg α) :
    PipelineState α → List String → PipelineState α × List String
  | s, [] => (s, [])
  | s, p :: ps =>
      let r1 := run_phase cfg s p
      let r2 := run_driver cfg r1.1 ps
      (r2.1, r1.2 ++ r2.2)

/-- The fixed phase list `PHASES` of `pipeline_state.py`. -/
def PHASES : List String :=
  ["phase0_crawl", "phase1_synth", "phase2_prompts",
   "phase3_history", "phase4_render", "phase5_metadata"]

/-! ### Process supervisor (`Dataset/crawler.py`, `download_page`) -/

/-- Outcome of one attempt of `download_page`: the child exceeded
`DOWNLOAD_TIMEOUT` (`TimeoutExpired`), it exited with a return code and the
output file's size if it exists, the executable could not be located
(`FileNotFoundError` from `Popen`), or some other exception escaped. -/
inductive AttemptResult where
  | timeoutExpired
  | exited (code : Int) (outputSize : Option Nat)
  | launchNotFound
  | otherError
deriving Repr, DecidableEq

/-- The success test of `download_page`: return code 0, output file exists
and its size exceeds 100 bytes. -/
def attempt_succeeds : AttemptResult → Bool
  | AttemptResult.exited code (some sz) => code = 0 && decide (100 < sz)
  | _ => false

/-- What one call to `download_page` did: its boolean result, how many
attempts it performed, and how many inter-attempt `time.sleep(REQUEST_DELAY)`
delays it made. -/
structure DownloadRun where
  result : Bool
  attemptsMade : Nat
  delays : Nat
deriving Repr, DecidableEq

/-- The retry loop `for attempt in range(1, MAX_RETRIES + 1)` of
`download_page`, started at attempt number `a`; `oc i` is what attempt `i`
does. `FileNotFoundError` returns failure at once; a successful attempt
returns success at once; any other outcome sleeps iff a further attempt
remains (`attempt < MAX_RETRIES`) and continues; an exhausted budget returns
failure. -/
def download_loop (oc : Nat → AttemptResult) (maxRetries : Nat) (a : Nat) :
    DownloadRun :=
  if _h : maxRetries < a then ⟨false, 0, 0⟩
  else if oc a = AttemptResult.launchNotFound then ⟨false, 1, 0⟩
  else if attempt_succeeds (oc a) then ⟨true, 1, 0⟩
  else
    let rest := download_loop oc maxRetries (a + 1)
    ⟨rest.result, rest.attemptsMade + 1,
      rest.delays + (if a < maxRetries then 1 else 0)⟩
termination_by maxRetries + 1 - a
decreasing_by omega

/-- `download_page(url, output_path)`: run the attempt loop from attempt 1. -/
def download_page (oc : Nat → AttemptResult) (maxRetries : Nat) : DownloadRun :=
  download_loop oc maxRetries 1

/-- `config.MAX_RETRIES`. -/
def MAX_RETRIES : Nat := 2

/-- A transient attempt failure in the sense of the failure taxonomy:
timeout, non-zero exit, or missing/too-small output — not a success and not
the executable-missing configuration error. -/
def transient_fail : AttemptResult → Bool
  | AttemptResult.timeoutExpired => true
  | AttemptResult.exited code out => !attempt_succeeds (AttemptResult.exited code out)
  | AttemptResult.launchNotFound => false
  | AttemptResult.otherError => true

/-! ### Interactive gate (`Dataset/crawler.py`, `_wait_for_captcha`) -/

/-- The polling loop of `_wait_for_captcha`. `pred n` is what the n-th call
of `check_fn` returns (call 0 is the initial check before the loop); `e` is
the elapsed wall-clock seconds when the current call is made. Each loop
iteration: if `check_fn` is false, return true; else if `elapsed > timeout`,
return false; else `time.sleep(2)` and poll again. Result: (gate value,
elapsed seconds at return). -/
def captcha_loop (pred : Nat → Bool) (timeout : Nat) (n : Nat) (e : Nat) :
    Bool × Nat :=
  if pred n = false then (true, e)
  else if timeout < e then (false, e)
  else captcha_loop pred timeout (n + 1) (e + 2)
termination_by timeout + 2 - e
decreasing_by omega

/-- `_wait_for_captcha(driver, check_fn, timeout)`: if the initial check is
false, return true immediately with no wait; otherwise enter the polling
loop (first in-loop poll is call 1, at elapsed 0). -/
def wait_for_captcha (pred : Nat → Bool) (timeout : Nat) : Bool × Nat :=
  if pred 0 = false then (true, 0)
  else captcha_loop pred timeout 1 0

/-! ### Scheduler aggregation (`Dataset/crawler.py`, `run_crawler`) -/

/-- Terminal outcome of one task's worker as seen by `run_crawler`'s
`as_completed` loop: `future.result()` yields the download's boolean, or an
exception escaped the worker. -/
inductive TaskOutcome where
  | ok (success : Bool)
  | exn
deriving Repr, DecidableEq

/-- One iteration of the `as_completed` loop: a success increments the
success count, a failed download or a worker exception increments the fail
count; in every case the loop continues to the next future. -/
def tally_step (acc : Nat × Nat) : TaskOutcome → Nat × Nat
  | TaskOutcome.ok true => (acc.1 + 1, acc.2)
  | TaskOutcome.ok false => (acc.1, acc.2 + 1)
  | TaskOutcome.exn => (acc.1, acc.2 + 1)

/-- Drain the completion stream: fold `tally_step` over the futures in their
completion order. -/
def collect_results (acc : Nat × Nat) : List TaskOutcome → Nat × Nat
  | [] => acc
  | o :: rest => collect_results (tally_step acc o) rest

/-- `run_crawler`'s aggregation: total (success, fail) counts after all
futures have completed, where `order` lists the tasks' outcomes in the order
`as_completed` delivered them. -/
def run_crawler_stats (order : List TaskOutcome) : Nat × Nat :=
  collect_results (0, 0) order

/-! ### Checkpointed job runner (`Training/train.py`) -/

/-- A file that may sit at the canonical or temporary checkpoint path: either
a fully written checkpoint with payload `β`, or a torn, half-written file
(the process died during the write). -/
inductive CkptFile (β : Type) where
  | full (c : β)
  | halfWritten
deriving Repr, DecidableEq

/-- The two checkpoint paths `save_checkpoint` touches: the canonical path
and the `path + ".tmp"` temporary; `none` means the path does not exist. -/
structure CkptFS (β : Type) where
  canonical : Option (CkptFile β)
  tmp : Option (CkptFile β)
deriving Repr, DecidableEq

/-- `save_checkpoint` run to completion: `torch.save` the full state to the
temporary path, then `os.replace(tmp_path, path)` atomically moves it over
the canonical path. -/
def save_checkpoint {β : Type} (c : β) (_fs : CkptFS β) : CkptFS β :=
  { canonical := some (CkptFile.full c), tmp := none }

/-- Every filesystem state a crash during `save_checkpoint` can leave behind,
in order: before anything is written; killed mid `torch.save` (temporary file
torn); after the temporary file is fully written but before `os.replace`;
after the atomic replace. -/
def save_checkpoint_crash_states {β : Type} (c : β) (fs : CkptFS β) :
    List (CkptFS β) :=
  [fs,
   { canonical := fs.canonical, tmp := some CkptFile.halfWritten },
   { canonical := fs.canonical, tmp := some (CkptFile.full c) },
   save_checkpoint c fs]

/-- The auto-resume computation of `train_one_monitor`: `start_epoch = 0`,
or the loaded checkpoint's epoch plus one when the canonical checkpoint file
exists (`load_checkpoint` returns `checkpoint["epoch"]`). -/
def resume_start (ckpt : Option Nat) : Nat :=
  match ckpt with
  | some e => e + 1
  | none => 0

/-- The epochs `train_one_monitor` actually executes: none at all when
`start_epoch >= NUM_EPOCHS` (early return), else
`range(start_epoch, NUM_EPOCHS)`. -/
def epochs_run (ckpt : Option Nat) (numEpochs : Nat) : List Nat :=
  let s := resume_start ckpt
  if numEpochs ≤ s then [] else List.range' s (numEpochs - s)

/-! ### Helper lemmas: phase state store -/

theorem getKey_setKey_self {α : Type} (l : List (String × α)) (k : String) (v : α) :
    getKey (setKey l k v) k = some v := by
  induction l with
  | nil => simp [setKey, getKey]
  | cons hd tl ih =>
      obtain ⟨k', v'⟩ := hd
      by_cases hk : k' = k
      · simp [setKey, getKey, hk]
      · simp [setKey, getKey, hk, ih]

theorem is_completed_iff {α : Type} (s : PipelineState α) (p : String) :
    is_completed s p = true ↔ p ∈ s.completed_phases := by
  simp [is_completed]

theorem mem_mark_completed {α : Type} (s : PipelineState α) (p : String)
    (d : Option α) : p ∈ (mark_completed s p d).completed_phases := by
  simp only [mark_completed]
  split <;> simp_all

theorem mark_completed_mono {α : Type} (s : PipelineState α) (p q : String)
    (d : Option α) (h : q ∈ s.completed_phases) :
    q ∈ (mark_completed s p d).completed_phases := by
  simp only [mark_completed]
  split <;> simp_all

/-- Claim C2: after `mark_completed(state, p, data)` returns, `p` is in
`completed_phases`, the whole updated state object has been written to the
durable state file, a subsequent `load()` of that file succeeds and returns
exactly that state, which reports the phase completed, and non-null data is
stored under `phase_data[p]`. -/
theorem C2_state_durability {α : Type} (s : PipelineState α) (p : String)
    (d : Option α) :
    p ∈ (mark_completed_persist s p d).1.completed_phases ∧
    (mark_completed_persist s p d).2 =
      some (StateFile.ok (mark_completed_persist s p d).1) ∧
    load_state (mark_completed_persist s p d).2 =
      Except.ok (mark_completed_persist s p d).1 ∧
    is_completed (mark_completed_persist s p d).1 p = true ∧
    (∀ v, d = some v →
      getKey (mark_completed_persist s p d).1.phase_data p = some v) := by
  refine ⟨mem_mark_completed s p d, rfl, ?_, ?_, ?_⟩
  · show load_state (save_state (mark_completed s p d)) = _
    rw [save_state, load_state]
    rfl
  · exact (is_completed_iff _ p).mpr (mem_mark_completed s p d)
  · intro v hv
    show getKey (mark_completed s p d).phase_data p = some v
    simp only [mark_completed, hv]
    exact getKey_setKey_self s.phase_data p v

/-- Demonstrates C2 on a concrete store: marking a phase on the empty state
with payload 7 makes a reload return the marked state, which reports the
phase completed and stores the payload. -/
theorem C2_state_durability_instance :
    (some 7 : Option Nat) = some 7 ∧
    load_state (mark_completed_persist (emptyState : PipelineState Nat)
        "phase2_prompts" (some 7)).2 =
      Except.ok (mark_completed_persist (emptyState : PipelineState Nat)
        "phase2_prompts" (some 7)).1 ∧
    is_completed (mark_completed_persist (emptyState : PipelineState Nat)
      "phase2_prompts" (some 7)).1 "phase2_prompts" = true ∧
    getKey (mark_completed_persist (emptyState : PipelineState Nat)
      "phase2_prompts" (some 7)).1.phase_data "phase2_prompts" = some 7 :=
  ⟨rfl,
   (C2_state_durability (emptyState : PipelineState Nat)
      "phase2_prompts" (some 7)).2.2.1,
   (C2_state_durability (emptyState : PipelineState Nat)
      "phase2_prompts" (some 7)).2.2.2.1,
   (C2_state_durability (emptyState : PipelineState Nat)
      "phase2_prompts" (some 7)).2.2.2.2 7 rfl⟩

/-- Refutes claim C8 as stated: a state file whose bytes are not decodable
text has contents that cannot be parsed, yet `load_state` does not return
the empty state there — the `except (json.JSONDecodeError, IOError)` clause
does not catch the `UnicodeDecodeError` the read raises, so `load()` raises
instead of starting fresh. -/
theorem C8_never_raises_counterexample :
    load_state (some (StateFile.undecodable : StateFile Nat)) ≠
      Except.ok (emptyState : PipelineState Nat) ∧
    load_state (some (StateFile.undecodable : StateFile Nat)) =
      Except.error PyError.unicodeDecodeError :=
  ⟨by simp [load_state], rfl⟩

/-- Claim C8 as amended: `load()` returns the empty state
`{completed_phases: [], phase_data: {}}` without raising when the persisted
file is absent, or when its contents decode as text but fail JSON parsing,
or when reading fails with an `IOError`; on any content other than
undecodable bytes it returns either the empty state or the successfully
parsed state; but a file whose bytes are not decodable text raises an
uncaught `UnicodeDecodeError` instead of starting fresh. -/
theorem C8_corruption_tolerant_load {α : Type} (f : Option (StateFile α)) :
    load_state (none : Option (StateFile α)) = Except.ok emptyState ∧
    load_state (some (StateFile.corrupt : StateFile α)) =
      Except.ok emptyState ∧
    (f ≠ some StateFile.undecodable →
      (load_state f = Except.ok emptyState ∨
        ∃ s, f = some (StateFile.ok s) ∧ load_state f = Except.ok s)) ∧
    load_state (some (StateFile.undecodable : StateFile α)) =
      Except.error PyError.unicodeDecodeError := by
  refine ⟨rfl, rfl, ?_, rfl⟩
  intro hf
  match f with
  | none => exact Or.inl rfl
  | some StateFile.corrupt => exact Or.inl rfl
  | some (StateFile.ok s) => exact Or.inr ⟨s, rfl, rfl⟩
  | some StateFile.undecodable => exact absurd rfl hf

/-- Demonstrates the amended C8 on a caught-error file: corrupt-but-decodable
content loads as the empty state without raising. -/
theorem C8_corruption_tolerant_load_instance :
    (some (StateFile.corrupt : StateFile Nat) ≠ some StateFile.undecodable) ∧
    (load_state (some (StateFile.corrupt : StateFile Nat)) =
        Except.ok emptyState ∨
      ∃ s, some (StateFile.corrupt : StateFile Nat) = some (StateFile.ok s) ∧
        load_state (some (StateFile.corrupt : StateFile Nat)) = Except.ok s) :=
  ⟨by simp,
   (C8_corruption_tolerant_load
      (some (StateFile.corrupt : StateFile Nat))).2.2.1 (by simp)⟩

/-- Claim C10: `is_completed` reads `completed_phases` with a defaulting
lookup, so on a dict-shaped state that lacks the key entirely it returns
false (for every phase), a phase not listed yields false, a phase is
reported completed exactly when listed, and the store-level `is_completed`
agrees with the dict-level read. -/
theorem C10_is_completed_total {α : Type} (completed : Option (List String))
    (p : String) (s : PipelineState α) :
    is_completed_dict none p = false ∧
    (is_completed_dict completed p = true ↔ p ∈ completed.getD []) ∧
    (p ∉ completed.getD [] → is_completed_dict completed p = false) ∧
    is_completed s p = is_completed_dict (some s.completed_phases) p := by
  refine ⟨by simp [is_completed_dict], by simp [is_completed_dict], ?_, ?_⟩
  · intro h
    simp [is_completed_dict, h]
  · simp [is_completed, is_completed_dict]

/-- Demonstrates C10 on a key-less dict: the lookup defaults and reports the
phase not completed without raising. -/
theorem C10_is_completed_total_instance :
    "phase0_crawl" ∉ (none : Option (List String)).getD [] ∧
    is_completed_dict none "phase0_crawl" = false :=
  ⟨by simp,
   (C10_is_completed_total (none : Option (List String)) "phase0_crawl"
      (emptyState : PipelineState Nat)).2.2.1 (by simp)⟩

/-! ### Helper lemmas: pipeline driver -/

theorem run_phase_skip {α : Type} (cfg : PhaseCfg α) (s : PipelineState α)
    (p : String) (h : is_completed s p = true) :
    run_phase cfg s p = (s, []) := by
  simp [run_phase, h]

theorem run_phase_sets {α : Type} (cfg : PhaseCfg α) (s : PipelineState α)
    (p : String) : p ∈ (run_phase cfg s p).1.completed_phases := by
  by_cases h : is_completed s p
  · rw [run_phase_skip cfg s p h]
    exact (is_completed_iff s p).mp h
  · simp only [run_phase]
    rw [if_neg h]
    split <;> exact mem_mark_completed s p _

theorem run_phase_mono {α : Type} (cfg : PhaseCfg α) (s : PipelineState α)
    (p q : String) (h : q ∈ s.completed_phases) :
    q ∈ (run_phase cfg s p).1.completed_phases := by
  simp only [run_phase]
  split
  · exact h
  · split <;> exact mark_completed_mono s p q _ h

theorem run_phase_trace {α : Type} (cfg : PhaseCfg α) (s : PipelineState α)
    (p : String) :
    (run_phase cfg s p).2 = [] ∨
      ((run_phase cfg s p).2 = [p] ∧ is_completed s p = false) := by
  by_cases h : is_completed s p
  · exact Or.inl (by simp [run_phase, h])
  · simp only [run_phase]
    rw [if_neg h]
    split
    · exact Or.inr ⟨rfl, by simpa using h⟩
    · exact Or.inl rfl

theorem run_driver_mono {α : Type} (cfg : PhaseCfg α) (phases : List String) :
    ∀ (s : PipelineState α) (q : String), q ∈ s.completed_phases →
      q ∈ (run_driver cfg s phases).1.completed_phases := by
  induction phases with
  | nil => intro s q h; simpa [run_driver] using h
  | cons p ps ih =>
      intro s q h
      simp only [run_driver]
      exact ih _ q (run_phase_mono cfg s p q h)

theorem run_driver_sets {α : Type} (cfg : PhaseCfg α) (phases : List String) :
    ∀ (s : PipelineState α) (p : String), p ∈ phases →
      p ∈ (run_driver cfg s phases).1.completed_phases := by
  induction phases with
  | nil => intro s p h; simp at h
  | cons q ps ih =>
      intro s p h
      simp only [run_driver]
      rcases List.mem_cons.mp h with rfl | hmem
      · exact run_driver_mono cfg ps _ p (run_phase_sets cfg s p)
      · exact ih _ p hmem

theorem run_driver_skip_all {α : Type} (cfg : PhaseCfg α) (phases : List String) :
    ∀ (s : PipelineState α), (∀ p ∈ phases, is_completed s p = true) →
      run_driver cfg s phases = (s, []) := by
  induction phases with
  | nil => intro s _; rfl
  | cons q ps ih =>
      intro s h
      have hq : run_phase cfg s q = (s, []) :=
        run_phase_skip cfg s q (h q (List.mem_cons_self q ps))
      simp only [run_driver, hq]
      have := ih s (fun p hp => h p (List.mem_cons_of_mem q hp))
      simp [this]

theorem run_driver_trace_fresh {α : Type} (cfg : PhaseCfg α)
    (phases : List String) :
    ∀ (s : PipelineState α) (q : String), is_completed s q = true →
      q ∉ (run_driver cfg s phases).2 := by
  induction phases with
  | nil => intro s q _ h; simp [run_driver] at h
  | cons p ps ih =>
      intro s q hc h
      simp only [run_driver, List.mem_append] at h
      rcases h with h1 | h2
      · rcases run_phase_trace cfg s p with ht | ⟨ht, hf⟩
        · rw [ht] at h1; simp at h1
        · rw [ht] at h1
          simp at h1
          subst h1
          rw [hc] at hf
          exact Bool.true_eq_false.mp hf
      · have hc1 : is_completed (run_phase cfg s p).1 q = true :=
          (is_completed_iff _ q).mpr
            (run_phase_mono cfg s p q ((is_completed_iff s q).mp hc))
        exact ih _ q hc1 h2

theorem run_driver_trace_count {α : Type} (cfg : PhaseCfg α)
    (phases : List String) :
    ∀ (s : PipelineState α) (q : String),
      (run_driver cfg s phases).2.count q ≤ 1 := by
  induction phases with
  | nil => intro s q; simp [run_driver]
  | cons p ps ih =>
      intro s q
      simp only [run_driver, List.count_append]
      rcases run_phase_trace cfg s p with ht | ⟨ht, _⟩
      · rw [ht]
        simpa using ih _ q
      · rw [ht]
        by_cases hpq : q = p
        · subst hpq
          have hdone : is_completed (run_phase cfg s q).1 q = true :=
            (is_completed_iff _ q).mpr (run_phase_sets cfg s q)
          have hnot := run_driver_trace_fresh cfg ps _ q hdone
          rw [List.count_eq_zero.mpr hnot]
          simp
        · have : [p].count q = 0 := by
            simp [List.count_singleton]
            exact fun h => hpq h.symm
          rw [this]
          simpa using ih _ q

/-- Claim C1: the driver skips a completed phase with no side effect (no
body, no state change); running the phase sequence a second time on the
state the first run produced executes zero phase bodies and leaves the state
unchanged; each phase body runs at most once across both runs combined; and
a phase completed before the first run never runs at all. -/
theorem C1_idempotent_resume {α : Type} (cfg : PhaseCfg α)
    (s : PipelineState α) (phases : List String) (p : String) :
    (is_completed s p = true → run_phase cfg s p = (s, [])) ∧
    run_driver cfg (run_driver cfg s phases).1 phases =
      ((run_driver cfg s phases).1, []) ∧
    ((run_driver cfg s phases).2 ++
      (run_driver cfg (run_driver cfg s phases).1 phases).2).count p ≤ 1 ∧
    (is_completed s p = true → p ∉ (run_driver cfg s phases).2) := by
  have hall : ∀ q ∈ phases, is_completed (run_driver cfg s phases).1 q = true :=
    fun q hq => (is_completed_iff _ q).mpr (run_driver_sets cfg phases s q hq)
  have h2 : run_driver cfg (run_driver cfg s phases).1 phases =
      ((run_driver cfg s phases).1, []) :=
    run_driver_skip_all cfg phases _ hall
  refine ⟨run_phase_skip cfg s p, h2, ?_, run_driver_trace_fresh cfg phases s p⟩
  rw [h2]
  simpa using run_driver_trace_count cfg phases s p

/-- Demonstrates C1 on a concrete run: with `"phase1_synth"` already
completed, the driver over the fixed phase list skips it (no body, no state
change) and a second full run performs zero bodies. -/
theorem C1_idempotent_resume_instance :
    is_completed (⟨["phase1_synth"], []⟩ : PipelineState Nat) "phase1_synth"
      = true ∧
    run_phase ⟨fun _ => true, fun _ => 0, 1⟩
      (⟨["phase1_synth"], []⟩ : PipelineState Nat) "phase1_synth"
      = (⟨["phase1_synth"], []⟩, []) ∧
    "phase1_synth" ∉ (run_driver ⟨fun _ => true, fun _ => 0, 1⟩
      (⟨["phase1_synth"], []⟩ : PipelineState Nat) PHASES).2 :=
  ⟨by decide,
   (C1_idempotent_resume ⟨fun _ => true, fun _ => 0, 1⟩
      (⟨["phase1_synth"], []⟩ : PipelineState Nat) PHASES "phase1_synth").1
      (by decide),
   (C1_idempotent_resume ⟨fun _ => true, fun _ => 0, 1⟩
      (⟨["phase1_synth"], []⟩ : PipelineState Nat) PHASES "phase1_synth").2.2.2
      (by decide)⟩

/-! ### Checkpoint atomicity and resume position -/

/-- Claim C3: `save_checkpoint` writes the full checkpoint to the temporary
path and only then atomically replaces the canonical path, so at every crash
point — including a crash right after the temporary file is written but
before the rename — the canonical path holds either the previous fully
written checkpoint (or stays absent) or the new fully written one, and is
never a half-written file; after the final step it holds the new one. -/
theorem C3_atomic_checkpoint {β : Type} (c : β) (fs : CkptFS β)
    (hvalid : fs.canonical = none ∨
      ∃ old, fs.canonical = some (CkptFile.full old)) :
    (∀ st ∈ save_checkpoint_crash_states c fs,
      (st.canonical = fs.canonical ∨ st.canonical = some (CkptFile.full c)) ∧
      st.canonical ≠ some (CkptFile.halfWritten : CkptFile β) ∧
      (st.canonical = none ∨ ∃ v, st.canonical = some (CkptFile.full v))) ∧
    (save_checkpoint c fs).canonical = some (CkptFile.full c) := by
  have hnothalf : fs.canonical ≠ some (CkptFile.halfWritten : CkptFile β) := by
    rcases hvalid with h | ⟨old, h⟩ <;> simp [h]
  refine ⟨?_, rfl⟩
  intro st hst
  simp only [save_checkpoint_crash_states, save_checkpoint, List.mem_cons,
    List.not_mem_nil, or_false] at hst
  rcases hst with rfl | rfl | rfl | rfl
  · exact ⟨Or.inl rfl, hnothalf, hvalid⟩
  · exact ⟨Or.inl rfl, hnothalf, hvalid⟩
  · exact ⟨Or.inl rfl, hnothalf, hvalid⟩
  · exact ⟨Or.inr rfl, by simp, Or.inr ⟨c, rfl⟩⟩

/-- Demonstrates C3 at the crash point right after the temporary file is
fully written: the canonical path still holds the old full checkpoint. -/
theorem C3_atomic_checkpoint_instance :
    ((⟨some (CkptFile.full 0), none⟩ : CkptFS Nat).canonical = none ∨
      ∃ old, (⟨some (CkptFile.full 0), none⟩ : CkptFS Nat).canonical
        = some (CkptFile.full old)) ∧
    ((⟨some (CkptFile.full 0), some (CkptFile.full 5)⟩ : CkptFS Nat).canonical
        = (⟨some (CkptFile.full 0), none⟩ : CkptFS Nat).canonical ∨
      (⟨some (CkptFile.full 0), some (CkptFile.full 5)⟩ : CkptFS Nat).canonical
        = some (CkptFile.full 5)) ∧
    (⟨some (CkptFile.full 0), some (CkptFile.full 5)⟩ : CkptFS Nat).canonical
      ≠ some (CkptFile.halfWritten : CkptFile Nat) :=
  ⟨Or.inr ⟨0, rfl⟩,
   (((C3_atomic_checkpoint 5 (⟨some (CkptFile.full 0), none⟩ : CkptFS Nat)
        (Or.inr ⟨0, rfl⟩)).1
      ⟨some (CkptFile.full 0), some (CkptFile.full 5)⟩
      (by simp [save_checkpoint_crash_states])).1),
   (((C3_atomic_checkpoint 5 (⟨some (CkptFile.full 0), none⟩ : CkptFS Nat)
        (Or.inr ⟨0, rfl⟩)).1
      ⟨some (CkptFile.full 0), some (CkptFile.full 5)⟩
      (by simp [save_checkpoint_crash_states])).2.1)⟩

/-- Claim C4: with a canonical checkpoint storing unit index `e`, the first
executed unit is `e + 1` (checkpoint at 9 with 20 units ⇒ first executed
unit is 10); with no checkpoint, execution starts at unit 0; and when
`e + 1 ≥ U` the runner performs no work at all. -/
theorem C4_resume_position (e numEpochs : Nat) :
    (e + 1 < numEpochs →
      (epochs_run (some e) numEpochs).head? = some (e + 1)) ∧
    (numEpochs ≤ e + 1 → epochs_run (some e) numEpochs = []) ∧
    (0 < numEpochs → (epochs_run none numEpochs).head? = some 0) ∧
    (epochs_run (some 9) 20).head? = some 10 := by
  refine ⟨?_, ?_, ?_, ?_⟩
  · intro h
    have hlt : ¬ numEpochs ≤ e + 1 := by omega
    simp only [epochs_run, resume_start, hlt, if_false]
    obtain ⟨k, hk⟩ : ∃ k, numEpochs - (e + 1) = k + 1 := ⟨numEpochs - e - 2, by omega⟩
    rw [hk, List.range'_succ]
    rfl
  · intro h
    simp [epochs_run, resume_start, h]
  · intro h
    have hlt : ¬ numEpochs ≤ 0 := by omega
    simp only [epochs_run, resume_start, hlt, if_false]
    obtain ⟨k, hk⟩ : ∃ k, numEpochs - 0 = k + 1 := ⟨numEpochs - 1, by omega⟩
    rw [hk, List.range'_succ]
    rfl
  · decide

/-- Demonstrates C4: checkpoint at unit 9 with 20 units resumes at unit 10,
and a checkpoint at unit 19 with 20 units performs no work. -/
theorem C4_resume_position_instance :
    9 + 1 < 20 ∧ (epochs_run (some 9) 20).head? = some 10 ∧
    20 ≤ 19 + 1 ∧ epochs_run (some 19) 20 = [] :=
  ⟨by decide, (C4_resume_position 9 20).1 (by decide),
   by decide, (C4_resume_position 19 20).2.1 (by decide)⟩

/-! ### Helper lemmas: process supervisor -/

theorem transient_fail_spec (r : AttemptResult) (h : transient_fail r = true) :
    attempt_succeeds r = false ∧ r ≠ AttemptResult.launchNotFound := by
  cases r <;> simp_all [transient_fail, attempt_succeeds]

theorem download_loop_all_fail (oc : Nat → AttemptResult) (maxRetries : Nat) :
    ∀ n a, maxRetries + 1 - a = n →
      (∀ b, a ≤ b → b ≤ maxRetries → transient_fail (oc b) = true) →
      download_loop oc maxRetries a = ⟨false, n, n - 1⟩ := by
  intro n
  induction n with
  | zero =>
      intro a hn _
      rw [download_loop, dif_pos (by omega)]
  | succ n ih =>
      intro a hn hfail
      have ha : a ≤ maxRetries := by omega
      obtain ⟨hsucc, hnf⟩ := transient_fail_spec (oc a) (hfail a le_rfl ha)
      have hrec := ih (a + 1) (by omega) (fun b hb1 hb2 => hfail b (by omega) hb2)
      rw [download_loop, dif_neg (by omega), if_neg hnf,
        if_neg (by simp [hsucc])]
      simp only [hrec, DownloadRun.mk.injEq]
      by_cases hlt : a < maxRetries
      · simp only [if_pos hlt]
        exact ⟨trivial, trivial, by omega⟩
      · simp only [if_neg hlt]
        exact ⟨trivial, trivial, by omega⟩

/-- Claim C5: when every one of the attempts 1..max_retries fails
transiently (timeout, non-zero exit, or missing/too-small output), the
supervisor performs exactly `max_retries` attempts, no more and no fewer,
sleeps between consecutive attempts only, and returns failure. -/
theorem C5_bounded_retries (oc : Nat → AttemptResult) (maxRetries : Nat)
    (h : ∀ b, 1 ≤ b → b ≤ maxRetries → transient_fail (oc b) = true) :
    download_page oc maxRetries = ⟨false, maxRetries, maxRetries - 1⟩ := by
  have := download_loop_all_fail oc maxRetries maxRetries 1 (by omega)
    (fun b hb1 hb2 => h b hb1 hb2)
  simpa [download_page] using this

/-- Demonstrates C5: with every attempt timing out and the configured
`MAX_RETRIES = 2`, the supervisor makes exactly 2 attempts, sleeps once, and
returns failure. -/
theorem C5_bounded_retries_instance :
    transient_fail AttemptResult.timeoutExpired = true ∧
    download_page (fun _ => AttemptResult.timeoutExpired) MAX_RETRIES =
      ⟨false, MAX_RETRIES, MAX_RETRIES - 1⟩ :=
  ⟨rfl, C5_bounded_retries (fun _ => AttemptResult.timeoutExpired) MAX_RETRIES
    (fun _ _ _ => rfl)⟩

/-- Claim C7: if launching the worker fails because the executable cannot be
located (`FileNotFoundError` on the first attempt), `download_page` returns
failure immediately: one attempt performed, no retries and no retry delay,
however large the remaining retry budget. -/
theorem C7_config_failure_no_retry (oc : Nat → AttemptResult)
    (maxRetries : Nat) (h1 : 1 ≤ maxRetries)
    (h2 : oc 1 = AttemptResult.launchNotFound) :
    download_page oc maxRetries = ⟨false, 1, 0⟩ := by
  rw [download_page, download_loop, dif_neg (by omega), if_pos h2]

/-- Demonstrates C7: a missing executable with a budget of 5 attempts stops
after the first attempt, with no delay. -/
theorem C7_config_failure_no_retry_instance :
    1 ≤ (5 : Nat) ∧
    download_page (fun _ => AttemptResult.launchNotFound) 5 = ⟨false, 1, 0⟩ :=
  ⟨by decide,
   C7_config_failure_no_retry (fun _ => AttemptResult.launchNotFound) 5
     (by decide) rfl⟩

/-! ### Helper lemmas: scheduler aggregation -/

theorem collect_results_sum :
    ∀ (l : List TaskOutcome) (acc : Nat × Nat),
      (collect_results acc l).1 + (collect_results acc l).2 =
        acc.1 + acc.2 + l.length := by
  intro l
  induction l with
  | nil => intro acc; simp [collect_results]
  | cons o rest ih =>
      intro acc
      simp only [collect_results, List.length_cons]
      rw [ih (tally_step acc o)]
      cases o with
      | ok b => cases b <;> simp [tally_step] <;> omega
      | exn => simp [tally_step]; omega

theorem collect_results_count :
    ∀ (l : List TaskOutcome) (acc : Nat × Nat),
      collect_results acc l =
        (acc.1 + l.count (TaskOutcome.ok true),
         acc.2 + l.count TaskOutcome.exn + l.count (TaskOutcome.ok false)) := by
  intro l
  induction l with
  | nil => intro acc; simp [collect_results]
  | cons o rest ih =>
      intro acc
      simp only [collect_results]
      rw [ih (tally_step acc o)]
      cases o with
      | ok b =>
          cases b <;> simp [tally_step, List.count_cons, Prod.ext_iff] <;> omega
      | exn => simp [tally_step, List.count_cons, Prod.ext_iff]; omega

/-- Claim C6: for a batch of N tasks delivered to the aggregation loop in an
arbitrary completion order (covering every concurrency bound and
interleaving), the tallied counts satisfy succeeded + failed = N, the tally
is identical for every completion order of the same outcomes, and a worker
whose exception escapes contributes a failure while every sibling task is
still counted. -/
theorem C6_scheduler_completeness (outcomes order : List TaskOutcome)
    (hperm : order.Perm outcomes) (pre post : List TaskOutcome) :
    (run_crawler_stats order).1 + (run_crawler_stats order).2 =
      outcomes.length ∧
    run_crawler_stats order = run_crawler_stats outcomes ∧
    (run_crawler_stats (pre ++ TaskOutcome.exn :: post)).1 +
      (run_crawler_stats (pre ++ TaskOutcome.exn :: post)).2 =
        pre.length + post.length + 1 := by
  refine ⟨?_, ?_, ?_⟩
  · have h := collect_results_sum order (0, 0)
    rw [hperm.length_eq] at h
    simpa [run_crawler_stats] using h
  · rw [run_crawler_stats, run_crawler_stats, collect_results_count,
      collect_results_count, hperm.count_eq, hperm.count_eq, hperm.count_eq]
  · have h := collect_results_sum (pre ++ TaskOutcome.exn :: post) (0, 0)
    simp only [List.length_append, List.length_cons] at h
    simpa [run_crawler_stats] using h

/-- Demonstrates C6 on a 3-task batch: completion order exn-first still
tallies succeeded + failed = 3. -/
theorem C6_scheduler_completeness_instance :
    ([TaskOutcome.exn, TaskOutcome.ok true, TaskOutcome.ok false].Perm
      [TaskOutcome.ok true, TaskOutcome.ok false, TaskOutcome.exn]) ∧
    (run_crawler_stats
        [TaskOutcome.exn, TaskOutcome.ok true, TaskOutcome.ok false]).1 +
      (run_crawler_stats
        [TaskOutcome.exn, TaskOutcome.ok true, TaskOutcome.ok false]).2 = 3 :=
  ⟨by decide,
   (C6_scheduler_completeness
      [TaskOutcome.ok true, TaskOutcome.ok false, TaskOutcome.exn]
      [TaskOutcome.exn, TaskOutcome.ok true, TaskOutcome.ok false]
      (by decide) [] []).1⟩

/-! ### Helper lemmas: interactive gate -/

theorem captcha_loop_first_false (pred : Nat → Bool) (timeout : Nat) :
    ∀ k n e, (∀ j, j < k → pred (n + j) = true) → pred (n + k) = false →
      e + 2 * k ≤ timeout + 2 →
      captcha_loop pred timeout n e = (true, e + 2 * k) := by
  intro k
  induction k with
  | zero =>
      intro n e _ hfalse _
      rw [captcha_loop, if_pos (by simpa using hfalse)]
      simp
  | succ k ih =>
      intro n e htrue hfalse hbound
      have hn : pred n = true := by simpa using htrue 0 (by omega)
      rw [captcha_loop, if_neg (by simp [hn]), if_neg (by omega)]
      have hrec := ih (n + 1) (e + 2)
        (fun j hj => by
          rw [show n + 1 + j = n + (j + 1) from by omega]
          exact htrue (j + 1) (by omega))
        (by rw [show n + 1 + k = n + (k + 1) from by omega]; exact hfalse)
        (by omega)
      rw [hrec, show e + 2 + 2 * k = e + 2 * (k + 1) from by omega]

theorem captcha_loop_stays_true (pred : Nat → Bool) (timeout : Nat)
    (hall : ∀ j, pred j = true) :
    ∀ m n e, timeout + 2 - e ≤ m →
      ∃ e2, captcha_loop pred timeout n e = (false, e2) ∧ timeout < e2 := by
  intro m
  induction m with
  | zero =>
      intro n e he
      have ht : timeout < e := by omega
      rw [captcha_loop, if_neg (by simp [hall n]), if_pos ht]
      exact ⟨e, rfl, ht⟩
  | succ m ih =>
      intro n e he
      by_cases ht : timeout < e
      · rw [captcha_loop, if_neg (by simp [hall n]), if_pos ht]
        exact ⟨e, rfl, ht⟩
      · rw [captcha_loop, if_neg (by simp [hall n]), if_neg ht]
        exact ih (n + 1) (e + 2) (by omega)

/-- Claim C9: the gate returns true immediately with no wait when the
predicate is initially false; when the predicate stays true through the
first k in-loop polls and clears at the next one within the timeout, the
gate returns true with elapsed 2k seconds; when the predicate never clears,
the gate returns false with cumulative wait exceeding the timeout; and the
spec scenario — predicate true for 3 polls at the 2-second interval, then
false, timeout 60 — returns true after 6 seconds. -/
theorem C9_interactive_gate (pred : Nat → Bool) (timeout k : Nat) :
    (pred 0 = false → wait_for_captcha pred timeout = (true, 0)) ∧
    ((∀ j, j < k + 1 → pred j = true) → pred (k + 1) = false →
      2 * k ≤ timeout → wait_for_captcha pred timeout = (true, 2 * k)) ∧
    ((∀ j, pred j = true) →
      ∃ e, wait_for_captcha pred timeout = (false, e) ∧ timeout < e) ∧
    wait_for_captcha (fun n => decide (n ≤ 3)) 60 = (true, 6) := by
  refine ⟨?_, ?_, ?_, ?_⟩
  · intro h
    rw [wait_for_captcha, if_pos h]
  · intro htrue hfalse hb
    have h0 : pred 0 = true := htrue 0 (by omega)
    rw [wait_for_captcha, if_neg (by simp [h0])]
    have h := captcha_loop_first_false pred timeout k 1 0
      (fun j hj => htrue (1 + j) (by omega))
      (by rw [show (1 : Nat) + k = k + 1 from by omega]; exact hfalse)
      (by omega)
    simpa using h
  · intro hall
    rw [wait_for_captcha, if_neg (by simp [hall 0])]
    exact captcha_loop_stays_true pred timeout hall (timeout + 2) 1 0 (by omega)
  · rw [wait_for_captcha, if_neg (by decide)]
    have h := captcha_loop_first_false (fun n => decide (n ≤ 3)) 60 3 1 0
      (fun j hj => by simpa using (by omega : 1 + j ≤ 3))
      (by decide) (by decide)
    simpa using h

/-- Demonstrates C9: an initially clear predicate returns at once with no
wait, and the 3-poll scenario returns true after 6 seconds. -/
theorem C9_interactive_gate_instance :
    wait_for_captcha (fun _ => false) 60 = (true, 0) ∧
    wait_for_captcha (fun n => decide (n ≤ 3)) 60 = (true, 6) :=
  ⟨(C9_interactive_gate (fun _ => false) 60 0).1 rfl,
   (C9_interactive_gate (fun n => decide (n ≤ 3)) 60 0).2.2.2⟩

end WebInject
